import Mathlib

/-!
# Verification of the StableAudioAlarmWebUI generation pipeline

Shallow embedding of `gradio_app.py` (the repository's single source file)
and proofs about its claims: the waveform post-processor (line 51), the
collision-safe persister (lines 60-79), the wait-time parser
(lines 97-102), the catch-all error handler (lines 83-110), and the
base64 payload round-trip (lines 54-81).

Machine floats are modelled by exact rationals together with explicit
NaN/Inf markers (`FVal`), so that IEEE division by zero is represented
faithfully instead of being silently defined as `0`.  Python strings are
Lean `String`s; the filesystem is an existence predicate
`String → Bool`; the external model, the WAV container and the MP3
codec are abstract parameters (the spec treats them as black boxes /
pure functions).
-/

namespace StableAudio

/-! ## Waveform post-processor (gradio_app.py line 51)

`output.to(torch.float32).div(torch.max(torch.abs(output)))
       .clamp(-1, 1).mul(32767).to(torch.int16)`

Samples are modelled as exact rationals.  `torch.max(torch.abs(t))`
is the global maximum of absolute values; IEEE `div` by `0` yields
NaN (for a `0` numerator) or a signed infinity; `clamp` maps NaN to
NaN and infinities to the bounds; the cast `.to(torch.int16)`
truncates toward zero and is undefined (`none`) on NaN/Inf. -/

/-- A float value: either NaN, a signed infinity, or a finite value
(modelled exactly as a rational). -/
inductive FVal where
  | nan : FVal
  | inf : Bool → FVal
  | val : ℚ → FVal
deriving DecidableEq

/-- `torch.abs` on one sample (kernel-computable absolute value). -/
def qabs (x : ℚ) : ℚ := if x < 0 then -x else x

/-- Binary maximum (kernel-computable). -/
def qmax (a b : ℚ) : ℚ := if a ≤ b then b else a

/-- `torch.max(torch.abs(output))`: the global maximum of the absolute
values of all samples (`0` for an empty tensor). -/
def maxAbs (xs : List ℚ) : ℚ := xs.foldr (fun x m => qmax (qabs x) m) 0

/-- IEEE division of the finite sample `x` by the finite maximum `m`:
`0 / 0` is NaN, `x / 0` for `x ≠ 0` is a signed infinity, otherwise the
exact quotient. -/
def divByMax (m x : ℚ) : FVal :=
  if m = 0 then (if x = 0 then FVal.nan else FVal.inf (0 < x)) else FVal.val (x / m)

/-- `torch.clamp(·, -1, 1)`: NaN propagates, infinities clamp to the
bounds, finite values are clamped into `[-1, 1]`. -/
def clampF : FVal → FVal
  | FVal.nan => FVal.nan
  | FVal.inf b => FVal.val (if b then 1 else -1)
  | FVal.val q => FVal.val (max (-1) (min 1 q))

/-- `.mul(k)`: NaN propagates; infinities keep their sign (only used
with the positive constant `32767`). -/
def mulConst (k : ℚ) : FVal → FVal
  | FVal.nan => FVal.nan
  | FVal.inf b => FVal.inf b
  | FVal.val q => FVal.val (q * k)

/-- Truncation toward zero of a rational, the rounding used by a
float→int cast. -/
def truncQ (q : ℚ) : ℤ := if 0 ≤ q then ⌊q⌋ else ⌈q⌉

/-- `.to(torch.int16)`: truncates a finite value toward zero; the cast
is undefined on NaN and infinities (`none`). -/
def toInt16 : FVal → Option ℤ
  | FVal.val q => some (truncQ q)
  | _ => none

/-- The normalization stage alone: every sample divided by the global
absolute maximum (line 51 before `clamp`). -/
def normalized (xs : List ℚ) : List FVal := xs.map (divByMax (maxAbs xs))

/-- The whole post-processing pipeline of line 51 on the (flattened)
raw waveform: peak-normalize, clamp, scale by 32767, cast to int16. -/
def postProcess (xs : List ℚ) : List (Option ℤ) :=
  xs.map (fun x => toInt16 (mulConst 32767 (clampF (divByMax (maxAbs xs) x))))

/-- Maximum absolute value of the quantized output; `none` as soon as
one sample's cast was undefined. -/
def maxAbsOut : List (Option ℤ) → Option ℤ
  | [] => some 0
  | none :: _ => none
  | some z :: rest =>
    match maxAbsOut rest with
    | some m => some (max |z| m)
    | none => none

/-! ## Filename sanitization (gradio_app.py line 67)

`re.sub(r'\W+', '_', prompt)`: every maximal run of non-word characters
is replaced by a single underscore.  `\w` is alphanumeric-or-underscore
(ASCII model of Python's word characters). -/

/-- A word character in the sense of the regex `\w`: alphanumeric or
underscore. -/
def isWordChar (c : Char) : Bool := c.isAlphanum || c = '_'

/-- One pass of `re.sub(r'\W+', '_', ·)` over the characters: the flag
records whether we are inside a run of non-word characters (in which
case further non-word characters are absorbed into the same
underscore). -/
def sanitizeAux : Bool → List Char → List Char
  | _, [] => []
  | inRun, c :: cs =>
    if isWordChar c then c :: sanitizeAux false cs
    else if inRun then sanitizeAux true cs
    else '_' :: sanitizeAux true cs

/-- `re.sub(r'\W+', '_', prompt)`. -/
def sanitizePrompt (s : String) : String := ⟨sanitizeAux false s.data⟩

/-! ## Wait-time parsing (gradio_app.py lines 97-102)

```
try:
    hh, mm, ss = map(int, wait_time.split(':'))
    wait_seconds = hh * 3600 + mm * 60 + ss
except ValueError:
    wait_seconds = 0
```
-/

/-- Python `str.split(':')` on the character list: empty fields are
kept, and the empty string yields `[""]`. -/
def pySplitColonAux : List Char → List Char → List String
  | [], acc => [⟨acc.reverse⟩]
  | c :: rest, acc =>
    if c = ':' then ⟨acc.reverse⟩ :: pySplitColonAux rest []
    else pySplitColonAux rest (c :: acc)

/-- Python `s.split(':')`. -/
def pySplitColon (s : String) : List String := pySplitColonAux s.data []

/-- Numeric value of a decimal digit character. -/
def digitVal (c : Char) : ℕ := c.toNat - '0'.toNat

/-- Digits after the first one: Python `int()` accepts a single
underscore between two digits (`"1_0"` is 10), and nothing else. -/
def pyDigitsAux : List Char → ℕ → Option ℕ
  | [], acc => some acc
  | '_' :: c :: rest, acc =>
    if c.isDigit then pyDigitsAux rest (acc * 10 + digitVal c) else none
  | c :: rest, acc =>
    if c.isDigit then pyDigitsAux rest (acc * 10 + digitVal c) else none

/-- A nonempty digit sequence (with optional single underscores between
digits), as accepted by Python `int()` after sign and whitespace. -/
def pyDigits : List Char → Option ℕ
  | [] => none
  | c :: rest => if c.isDigit then pyDigitsAux rest (digitVal c) else none

/-- Python `int(s)`: strip surrounding whitespace, an optional sign,
then a digit sequence; `none` models the `ValueError`. -/
def pyInt (s : String) : Option ℤ :=
  match ((s.data.dropWhile Char.isWhitespace).reverse.dropWhile Char.isWhitespace).reverse with
  | '-' :: rest => (pyDigits rest).map (fun n => -(n : ℤ))
  | '+' :: rest => (pyDigits rest).map (fun n => (n : ℤ))
  | t => (pyDigits t).map (fun n => (n : ℤ))

/-- Lines 98-102: split on `':'`, unpack exactly three fields, convert
each with `int`, and combine; any `ValueError` (wrong field count or a
non-numeric field) yields 0. -/
def parseWaitTime (s : String) : ℤ :=
  match pySplitColon s with
  | [a, b, c] =>
    match pyInt a, pyInt b, pyInt c with
    | some hh, some mm, some ss => hh * 3600 + mm * 60 + ss
    | _, _, _ => 0
  | _ => 0

/-! ## Collision-safe persister (gradio_app.py lines 60-79)

The filesystem is an existence predicate `ex : String → Bool`
(`os.path.exists`).  `save_path = os.path.join("Output", date_folder)`,
`filename = re.sub(r'\W+', '_', prompt) + ".mp3"`, and the `while`
loop probes `f"{base_filename[:-4]}_{counter}.mp3"` for
counter = 1, 2, … until an unused path is found.  The loop is embedded
with explicit fuel, so that its termination is a provable statement
rather than an assumption. -/

/-- `os.path.join(dir, fn)` (POSIX). -/
def joinPath (dir fn : String) : String := dir ++ "/" ++ fn

/-- Python `s[:-4]`: all characters but the last four. -/
def pyDropLast4 (s : String) : String := ⟨s.data.take (s.data.length - 4)⟩

/-- Line 74: `f"{base_filename[:-4]}_{counter}.mp3"`. -/
def nextFilename (base : String) (counter : ℕ) : String :=
  pyDropLast4 base ++ "_" ++ toString counter ++ ".mp3"

/-- The `while os.path.exists(full_path)` loop of lines 72-76, with
fuel: the current `full_path` and `counter` are the loop state, and
running out of fuel returns `none` (the real loop just keeps going). -/
def uniquify (ex : String → Bool) (savePath base : String) :
    ℕ → String → ℕ → Option String
  | 0, _, _ => none
  | fuel + 1, fullPath, counter =>
    if ex fullPath then
      uniquify ex savePath base fuel
        (joinPath savePath (nextFilename base counter)) (counter + 1)
    else some fullPath

/-- Lines 68-76: start from `os.path.join(save_path, filename)` with
`counter = 1` and probe until an unused path is found. -/
def resolvePath (ex : String → Bool) (savePath base : String) (fuel : ℕ) : Option String :=
  uniquify ex savePath base fuel (joinPath savePath base) 1

/-- The n-th candidate path for a sanitized stem: the base path for
`n = 0`, the `_n`-suffixed variant for `n ≥ 1`. -/
def candPath (savePath stem : String) : ℕ → String
  | 0 => joinPath savePath (stem ++ ".mp3")
  | n + 1 => joinPath savePath (stem ++ "_" ++ toString (n + 1) ++ ".mp3")

/-! ## Base64 (gradio_app.py line 81)

`base64.b64encode(audio_bytes.read()).decode("utf-8")`: standard
RFC 4648 base64 with `=` padding, on bytes modelled as naturals
below 256. -/

/-- The base64 alphabet. -/
def b64Alphabet : String :=
  "ABCDEFGHIJKLMNOPQRSTUVWXYZabcdefghijklmnopqrstuvwxyz0123456789+/"

/-- The character encoding a 6-bit group. -/
def b64Char (n : ℕ) : Char := b64Alphabet.data.getD n '?'

/-- Position of a character in the base64 alphabet. -/
def b64DecCharAux : List Char → ℕ → Char → Option ℕ
  | [], _, _ => none
  | d :: rest, i, c => if c = d then some i else b64DecCharAux rest (i + 1) c

/-- Decode one base64 character to its 6-bit value. -/
def b64DecChar (c : Char) : Option ℕ := b64DecCharAux b64Alphabet.data 0 c

/-- `base64.b64encode`: three bytes become four characters; a final
group of one or two bytes is padded with `=`. -/
def b64encodeBytes : List ℕ → List Char
  | [] => []
  | [b1] => [b64Char (b1 / 4), b64Char (b1 % 4 * 16), '=', '=']
  | [b1, b2] =>
    [b64Char (b1 / 4), b64Char (b1 % 4 * 16 + b2 / 16), b64Char (b2 % 16 * 4), '=']
  | b1 :: b2 :: b3 :: rest =>
    b64Char (b1 / 4) :: b64Char (b1 % 4 * 16 + b2 / 16) ::
      b64Char (b2 % 16 * 4 + b3 / 64) :: b64Char (b3 % 64) :: b64encodeBytes rest

/-- Base64 decoding (the inverse direction of the round-trip claim):
groups of four characters, with `=` padding allowed only at the end. -/
def b64decodeBytes : List Char → Option (List ℕ)
  | [] => some []
  | c1 :: c2 :: c3 :: c4 :: rest =>
    match b64DecChar c1, b64DecChar c2 with
    | some d1, some d2 =>
      if c3 = '=' then
        if c4 = '=' ∧ rest = [] ∧ d2 % 16 = 0 then some [d1 * 4 + d2 / 16] else none
      else
        match b64DecChar c3 with
        | some d3 =>
          if c4 = '=' then
            if rest = [] ∧ d3 % 4 = 0 then
              some [d1 * 4 + d2 / 16, d2 % 16 * 16 + d3 / 4]
            else none
          else
            match b64DecChar c4 with
            | some d4 =>
              (b64decodeBytes rest).map
                (fun bs => (d1 * 4 + d2 / 16) :: (d2 % 16 * 16 + d3 / 4) ::
                  (d3 % 4 * 64 + d4) :: bs)
            | none => none
        | none => none
    | _, _ => none
  | _ => none

/-- Base64 encoding to a string (as returned to the caller). -/
def b64encodeStr (bs : List ℕ) : String := ⟨b64encodeBytes bs⟩

/-- Base64 decoding from a string. -/
def b64decodeStr (s : String) : Option (List ℕ) := b64decodeBytes s.data

/-! ## The generation orchestrator `generate_audio` (lines 16-81)

The diffusion model, the WAV container and the MP3 codec are external
collaborators; they are parameters (`model`, `toAudio`, `exportMp3`).
`ModelCall` records exactly the arguments the code hands to
`generate_diffusion_cond` (including the conditioning built on
lines 27-31); `FsEffect` records the file operations the code
performs, in order. -/

/-- The arguments `generate_audio` passes to the black-box model call
`generate_diffusion_cond` (lines 27-45): all numeric parameters are
forwarded, and the conditioning carries the prompt with
`seconds_start = 0` and `seconds_total = generation_time`. -/
structure ModelCall where
  prompt : String
  steps : ℤ
  cfg_scale : ℚ
  seconds_start : ℚ
  seconds_total : ℚ
  sigma_min : ℚ
  sigma_max : ℚ
  sampler_type : String
  seed : ℤ
deriving DecidableEq

/-- A file operation performed by `generate_audio`, in program order.
`removeFile` never occurs in the embedded trace: the code deletes
nothing. -/
inductive FsEffect where
  | writeWav : String → FsEffect
  | readWav : String → FsEffect
  | exportFile : String → FsEffect
  | removeFile : String → FsEffect
deriving DecidableEq

/-- What `generate_audio` produces: the model invocation it made, the
resolved unique path, the base64 payload returned to the caller
(line 81), the bytes written to that path (line 79), and the ordered
file-operation trace. -/
structure GenOut where
  call : ModelCall
  full_path : String
  payload : String
  writtenBytes : List ℕ
  effects : List FsEffect
deriving DecidableEq

/-- Shallow embedding of `generate_audio` (lines 16-81).  `model` is
`generate_diffusion_cond` (already rearranged to a flat sample list),
`toAudio` is `AudioSegment.from_wav` after `torchaudio.save` (the type
`α` of audio segments is abstract), `exportMp3` is
`AudioSegment.export(format="mp3")` — a pure function, per the spec's
treatment of the codec.  `ex` is `os.path.exists`, `dateFolder` the
`%Y-%m-%d` date string, and `fuel` bounds the probe loop.  No numeric
parameter is validated or clamped anywhere: each is passed to the model
exactly as received. -/
def generate_audio {α : Type} (prompt : String) (steps : ℤ)
    (cfg_scale sigma_min sigma_max generation_time : ℚ) (seed : ℤ)
    (sampler_type : String) (model : ModelCall → List ℚ)
    (toAudio : List (Option ℤ) → α) (exportMp3 : α → List ℕ)
    (ex : String → Bool) (dateFolder : String) (fuel : ℕ) : Option GenOut :=
  let call : ModelCall :=
    ⟨prompt, steps, cfg_scale, 0, generation_time, sigma_min, sigma_max, sampler_type, seed⟩
  let raw := model call
  let pcm := postProcess raw
  let audio := toAudio pcm
  let memBytes := exportMp3 audio
  let savePath := joinPath "Output" dateFolder
  let filename := sanitizePrompt prompt ++ ".mp3"
  match resolvePath ex savePath filename fuel with
  | none => none
  | some fullPath =>
    some ⟨call, fullPath, b64encodeStr memBytes, exportMp3 audio,
      [FsEffect.writeWav "temp_output.wav", FsEffect.readWav "temp_output.wav",
        FsEffect.exportFile fullPath]⟩

/-! ## The invocation surface `audio_generator` (lines 83-110)

The whole body sits in `try: … except Exception as e: return str(e), ""`.
A raised exception anywhere in generation, conversion or persistence is
modelled as `Except.error` with the exception's text.  `time.sleep`
raises `ValueError` on a negative argument; the outer handler catches
that too. -/

/-- `time.sleep(w)`: raises `ValueError` for a negative duration. -/
def pySleep (w : ℤ) : Except String Unit :=
  if w < 0 then Except.error "sleep length must be non-negative" else Except.ok ()

/-- The HTML fragment of line 107. -/
def audioPlayerHtml (b64 : String) : String :=
  "<audio src=\"data:audio/mpeg;base64," ++ b64 ++ "\" controls autoplay></audio>"

/-- What `audio_generator` returns: the two Gradio outputs, plus the
argument passed to `time.sleep` (`none` when generation failed before
the sleep was reached). -/
structure AGOut where
  fragment : String
  status : String
  sleepArg : Option ℤ
deriving DecidableEq

/-- Shallow embedding of `audio_generator` (lines 83-110): `gen` is the
outcome of the `generate_audio` call (`Except.error e` when any step of
generation, conversion or persistence raised an exception with text
`e`). -/
def audio_generator (gen : Except String (String × String)) (wait_time : String) : AGOut :=
  match gen with
  | Except.error e => ⟨e, "", none⟩
  | Except.ok (filename, audio_base64) =>
    let w := parseWaitTime wait_time
    match pySleep w with
    | Except.error e => ⟨e, "", some w⟩
    | Except.ok _ =>
      ⟨audioPlayerHtml audio_base64, "Generated: " ++ filename, some w⟩

/-! ## Helper lemmas -/

theorem qabs_eq_abs (x : ℚ) : qabs x = |x| := by
  unfold qabs
  split
  · exact (abs_of_neg (by assumption)).symm
  · exact (abs_of_nonneg (le_of_not_lt (by assumption))).symm

theorem qmax_eq_max (a b : ℚ) : qmax a b = max a b := by
  rw [qmax, max_def]

theorem maxAbs_cons (x : ℚ) (xs : List ℚ) : maxAbs (x :: xs) = max |x| (maxAbs xs) := by
  show qmax (qabs x) (maxAbs xs) = max |x| (maxAbs xs)
  rw [qabs_eq_abs, qmax_eq_max]

theorem le_maxAbs {x : ℚ} {xs : List ℚ} (hx : x ∈ xs) : |x| ≤ maxAbs xs := by
  induction xs with
  | nil => cases hx
  | cons y ys ih =>
    rw [maxAbs_cons]
    rcases List.mem_cons.1 hx with rfl | hmem
    · exact le_max_left _ _
    · exact le_trans (ih hmem) (le_max_right _ _)

theorem exists_abs_eq_maxAbs {xs : List ℚ} (h : maxAbs xs ≠ 0) :
    ∃ x ∈ xs, |x| = maxAbs xs := by
  induction xs with
  | nil => exact absurd rfl h
  | cons y ys ih =>
    rw [maxAbs_cons] at h ⊢
    rcases max_choice |y| (maxAbs ys) with hm | hm
    · exact ⟨y, List.mem_cons_self y ys, hm.symm⟩
    · rw [hm] at h ⊢
      obtain ⟨x, hx, hex⟩ := ih h
      exact ⟨x, List.mem_cons_of_mem _ hx, hex⟩

theorem sanitizeAux_all_word (l : List Char) (h : ∀ c ∈ l, isWordChar c = true) (b : Bool) :
    sanitizeAux b l = l := by
  induction l generalizing b with
  | nil => rfl
  | cons c cs ih =>
    have hc : isWordChar c = true := h c (List.mem_cons_self c cs)
    simp [sanitizeAux, hc, ih (fun d hd => h d (List.mem_cons_of_mem _ hd))]

theorem sanitizeAux_mem_word (b : Bool) (l : List Char) :
    ∀ c ∈ sanitizeAux b l, isWordChar c = true := by
  induction l generalizing b with
  | nil => intro c hc; cases hc
  | cons d ds ih =>
    intro c hc
    simp only [sanitizeAux] at hc
    split at hc
    · rcases List.mem_cons.1 hc with h1 | h2
      · subst h1; assumption
      · exact ih false c h2
    · split at hc
      · exact ih true c hc
      · rcases List.mem_cons.1 hc with h1 | h2
        · subst h1; rfl
        · exact ih true c h2

theorem sanitizeAux_none_word (l : List Char) (h : ∀ c ∈ l, isWordChar c = false) :
    sanitizeAux true l = [] := by
  induction l with
  | nil => rfl
  | cons d ds ih =>
    have hd := h d (List.mem_cons_self d ds)
    simp [sanitizeAux, hd, ih fun c hc => h c (List.mem_cons_of_mem _ hc)]

/-! ## Claim C1 (code bug): silent input is NOT guarded against division by zero -/

/-- Claim C1 evidence: the claim says the division by the global absolute
maximum is skipped or guarded when that maximum is zero, so an all-zero
raw waveform yields an all-zero output with no NaN/Inf.  The code of
line 51 divides unconditionally: on the all-zero input `[0, 0]` the
global maximum is `0`, every sample becomes `0/0 = NaN`, and the int16
cast of NaN is undefined — the output is not all-zero and NaN values
are produced.  This contradicts the spec's stated behavior, so the
claim records a code bug. -/
theorem c1_silent_input_produces_nan :
    normalized [0, 0] = [FVal.nan, FVal.nan] ∧ postProcess [0, 0] = [none, none] := by
  decide

/-! ## Claim C5: wait-time parsing -/

/-- Claim C5: the wait-time parser maps `"00:05:00"` to 300 seconds and
`"01:00:00"` to 3600 seconds; every malformed input (`"abc"`, `"5:"`,
the empty string, and in general any string that does not split into
three `int`-parseable fields) yields 0 seconds.  The embedded parser is
a total function — the `except ValueError` of lines 101-102 is the
`0`-default of every non-matching branch — so no parse exception ever
escapes: every string either yields 0 or the `hh*3600 + mm*60 + ss`
total of its three parsed fields. -/
theorem c5_wait_time_parse :
    parseWaitTime "00:05:00" = 300 ∧ parseWaitTime "01:00:00" = 3600 ∧
    parseWaitTime "abc" = 0 ∧ parseWaitTime "5:" = 0 ∧ parseWaitTime "" = 0 ∧
    ∀ s : String, parseWaitTime s = 0 ∨
      ∃ a b c hh mm ss, pySplitColon s = [a, b, c] ∧ pyInt a = some hh ∧
        pyInt b = some mm ∧ pyInt c = some ss ∧
        parseWaitTime s = hh * 3600 + mm * 60 + ss := by
  refine ⟨by decide, by decide, by decide, by decide, by decide, ?_⟩
  intro s
  unfold parseWaitTime
  split
  · next a b c heq =>
    split
    · next hh mm ss ha hb hc =>
      exact Or.inr ⟨a, b, c, hh, mm, ss, heq, ha, hb, hc, rfl⟩
    · exact Or.inl rfl
  · exact Or.inl rfl

/-! ## Claim C6 (corrected): sanitization is idempotent, but the empty
string maps to an empty stem, not to a placeholder -/

/-- Claim C6 counterexample: the claim says every input consisting only
of non-alphanumeric characters — including the empty string — maps to a
single non-empty placeholder token, never an empty stem.  The code's
`re.sub(r'\W+', '_', prompt)` maps the empty string to the empty string
(so the written filename is the bare `.mp3`), and maps `"___"` (all
non-alphanumeric) to `"___"`, which is not a single placeholder token:
underscores are word characters and are preserved, not collapsed. -/
theorem c6_counterexample :
    sanitizePrompt "" = "" ∧ sanitizePrompt "___" = "___" := by
  decide

/-- Claim C6 as amended: sanitization is idempotent and total;
every non-empty input consisting only of non-word characters (neither
alphanumeric nor underscore) maps to the single token `"_"`; but the
empty string maps to the empty stem, not to a placeholder. -/
theorem c6_sanitize_idempotent :
    (∀ s : String, sanitizePrompt (sanitizePrompt s) = sanitizePrompt s) ∧
    (∀ s : String, s ≠ "" → (∀ c ∈ s.data, isWordChar c = false) →
      sanitizePrompt s = "_") ∧
    sanitizePrompt "" = "" := by
  refine ⟨?_, ?_, rfl⟩
  · intro s
    show (⟨sanitizeAux false (sanitizeAux false s.data)⟩ : String) = _
    rw [sanitizeAux_all_word _ (sanitizeAux_mem_word false s.data) false]
    rfl
  · intro s hne hall
    obtain ⟨l⟩ := s
    cases l with
    | nil => exact absurd rfl hne
    | cons d ds =>
      have hd := hall d (List.mem_cons_self d ds)
      have hds : sanitizeAux true ds = [] :=
        sanitizeAux_none_word ds fun c hc => hall c (List.mem_cons_of_mem _ hc)
      show (⟨sanitizeAux false (d :: ds)⟩ : String) = "_"
      simp [sanitizeAux, hd, hds]

/-- Witness for the amended claim C6 at concrete inputs. -/
theorem c6_sanitize_idempotent_witness :
    sanitizePrompt (sanitizePrompt "a b!") = sanitizePrompt "a b!" ∧
    sanitizePrompt "!!!" = "_" :=
  ⟨c6_sanitize_idempotent.1 "a b!",
    c6_sanitize_idempotent.2.1 "!!!" (by decide) (by decide)⟩

/-! ## Claim C8: the catch-all handler surfaces exception text -/

/-- Claim C8: any exception raised during generation, conversion or
persistence (modelled as `Except.error e`, where `e` is the exception's
plain text `str(e)`) aborts the request: `audio_generator` returns the
text `e` in place of the playable output fragment, an empty status
message, and never reaches the sleep — the exception does not propagate
to the caller. -/
theorem c8_error_surfaced (e wait_time : String) :
    audio_generator (Except.error e) wait_time = ⟨e, "", none⟩ := rfl

/-! ## Claim C10: negative fields parse and reach time.sleep -/

/-- Claim C10: a wait-time string of exactly three colon-separated
integer literals parses successfully to `hh*3600 + mm*60 + ss` even
when a field is negative — Python's `int` accepts a sign.  In
particular `"00:-1:00"` yields `-60`, and on a successful generation
the value `-60` is what gets passed to the blocking `time.sleep`
(recorded in `sleepArg`), instead of being treated as a parse failure
defaulting to zero wait. -/
theorem c10_negative_wait :
    parseWaitTime "00:-1:00" = -60 ∧
    (audio_generator (Except.ok ("f.mp3", "QUJD")) "00:-1:00").sleepArg = some (-60) ∧
    ∀ (s a b c : String) (hh mm ss : ℤ), pySplitColon s = [a, b, c] →
      pyInt a = some hh → pyInt b = some mm → pyInt c = some ss →
      parseWaitTime s = hh * 3600 + mm * 60 + ss := by
  refine ⟨by decide, by decide, ?_⟩
  intro s a b c hh mm ss hsp ha hb hc
  unfold parseWaitTime
  rw [hsp]
  simp [ha, hb, hc]

/-- Witness for claim C10 at the concrete input `"00:-1:00"`. -/
theorem c10_negative_wait_witness :
    parseWaitTime "00:-1:00" = 0 * 3600 + (-1) * 60 + 0 :=
  c10_negative_wait.2.2 "00:-1:00" "00" "-1" "00" 0 (-1) 0
    (by decide) (by decide) (by decide) (by decide)

/-! ## Claim C3: collision-safe path resolution -/

theorem data_append (s t : String) : (s ++ t).data = s.data ++ t.data := by
  cases s; cases t; rfl

theorem pyDropLast4_append (s : String) : pyDropLast4 (s ++ ".mp3") = s := by
  cases s with
  | mk l =>
    show (⟨((⟨l⟩ : String) ++ ".mp3").data.take
      (((⟨l⟩ : String) ++ ".mp3").data.length - 4)⟩ : String) = (⟨l⟩ : String)
    rw [data_append]
    show (⟨(l ++ ['.', 'm', 'p', '3']).take ((l ++ ['.', 'm', 'p', '3']).length - 4)⟩ :
      String) = (⟨l⟩ : String)
    congr 1
    rw [List.length_append]
    show (l ++ ['.', 'm', 'p', '3']).take (l.length + 4 - 4) = l
    rw [Nat.add_sub_cancel]
    exact List.take_left l _

theorem nextFilename_stem (stem : String) (n : ℕ) :
    nextFilename (stem ++ ".mp3") n = stem ++ "_" ++ toString n ++ ".mp3" := by
  rw [nextFilename, pyDropLast4_append]

/-- Whatever path the probe loop settles on, no file exists there: the
loop only ever exits on a path whose existence check came back false,
so the subsequent `audio.export(full_path, ...)` never overwrites. -/
theorem uniquify_result_free (ex : String → Bool) (savePath base : String) :
    ∀ (fuel : ℕ) (cur : String) (counter : ℕ) (p : String),
      uniquify ex savePath base fuel cur counter = some p → ex p = false := by
  intro fuel
  induction fuel with
  | zero => intro cur counter p h; cases h
  | succ f ih =>
    intro cur counter p h
    rw [uniquify] at h
    split at h
    · exact ih _ _ _ h
    · next hex =>
      cases h
      exact Bool.not_eq_true _ ▸ Bool.of_not_eq_true hex

/-- The probe loop, entered at candidate `c - 1` with counter `c`,
resolves to candidate `N` whenever candidates `0 .. N-1` exist,
candidate `N` does not, and at least `N + 2 - c` fuel remains. -/
theorem uniquify_resolves (ex : String → Bool) (savePath stem : String) (N : ℕ)
    (hex : ∀ i, i < N → ex (candPath savePath stem i) = true)
    (hfree : ex (candPath savePath stem N) = false) :
    ∀ (fuel c : ℕ), 1 ≤ c → c ≤ N + 1 → N + 2 - c ≤ fuel →
      uniquify ex savePath (stem ++ ".mp3") fuel (candPath savePath stem (c - 1)) c
        = some (candPath savePath stem N) := by
  intro fuel
  induction fuel with
  | zero => intro c h1 h2 h3; omega
  | succ f ih =>
    intro c h1 h2 h3
    rw [uniquify]
    by_cases hc : c - 1 = N
    · rw [hc, hfree]
      simp
    · have hlt : c - 1 < N := by omega
      rw [hex _ hlt]
      simp only [if_true]
      rw [nextFilename_stem]
      have hcand : joinPath savePath (stem ++ "_" ++ toString c ++ ".mp3")
          = candPath savePath stem c := by
        cases c with
        | zero => omega
        | succ k => rfl
      rw [hcand]
      have hc1 : c = (c + 1) - 1 := by omega
      rw [hc1]
      exact ih (c + 1) (by omega) (by omega) (by omega)

/-- Claim C3: for every prompt and every N ≥ 1, if the target directory
already holds files at the sanitized base path and at its `_1 .. _(N-1)`
variants, and the `_N` variant is free, then the probe loop of
lines 70-76 terminates within `N + 1` iterations and resolves exactly to
the `_N` candidate — a path at which no file exists, so the write never
targets an existing file. -/
theorem c3_collision_suffix (ex : String → Bool) (savePath prompt : String) (N : ℕ)
    (hN : 1 ≤ N)
    (hex : ∀ i, i < N → ex (candPath savePath (sanitizePrompt prompt) i) = true)
    (hfree : ex (candPath savePath (sanitizePrompt prompt) N) = false) :
    resolvePath ex savePath (sanitizePrompt prompt ++ ".mp3") (N + 1)
      = some (candPath savePath (sanitizePrompt prompt) N)
    ∧ ex (candPath savePath (sanitizePrompt prompt) N) = false := by
  refine ⟨?_, hfree⟩
  have h := uniquify_resolves ex savePath (sanitizePrompt prompt) N hex hfree
    (N + 1) 1 le_rfl (by omega) (by omega)
  exact h

/-- Witness for claim C3: two prior files (`a_b.mp3` and `a_b_1.mp3`)
for prompt `"a b"`, so persisting resolves to the `_2` variant. -/
theorem c3_collision_suffix_witness :
    resolvePath (fun p => p == "Output/2024-01-01/a_b.mp3" || p == "Output/2024-01-01/a_b_1.mp3")
        "Output/2024-01-01" (sanitizePrompt "a b" ++ ".mp3") 3
      = some (candPath "Output/2024-01-01" (sanitizePrompt "a b") 2)
    ∧ (fun p => p == "Output/2024-01-01/a_b.mp3" || p == "Output/2024-01-01/a_b_1.mp3")
        (candPath "Output/2024-01-01" (sanitizePrompt "a b") 2) = false :=
  c3_collision_suffix _ "Output/2024-01-01" "a b" 2 (by decide) (by decide) (by decide)

/-! ## Base64 round-trip -/

theorem b64DecChar_b64Char : ∀ d : ℕ, d < 64 → b64DecChar (b64Char d) = some d := by
  decide

theorem b64Char_ne_pad : ∀ d : ℕ, d < 64 → ¬ b64Char d = '=' := by
  decide

theorem b64_roundtrip : ∀ bs : List ℕ, (∀ b ∈ bs, b < 256) →
    b64decodeBytes (b64encodeBytes bs) = some bs
  | [], _ => rfl
  | [b1], h => by
    have hb1 : b1 < 256 := h b1 (by simp)
    have d1 := b64DecChar_b64Char (b1 / 4) (by omega)
    have d2 := b64DecChar_b64Char (b1 % 4 * 16) (by omega)
    simp only [b64encodeBytes, b64decodeBytes, d1, d2, Nat.mul_mod_left,
      if_pos, and_true, and_self, eq_self_iff_true, if_true, Option.some.injEq,
      List.cons.injEq, and_true]
    omega
  | [b1, b2], h => by
    have hb1 : b1 < 256 := h b1 (by simp)
    have hb2 : b2 < 256 := h b2 (by simp)
    have d1 := b64DecChar_b64Char (b1 / 4) (by omega)
    have d2 := b64DecChar_b64Char (b1 % 4 * 16 + b2 / 16) (by omega)
    have d3 := b64DecChar_b64Char (b2 % 16 * 4) (by omega)
    have n3 := b64Char_ne_pad (b2 % 16 * 4) (by omega)
    simp only [b64encodeBytes, b64decodeBytes, d1, d2, d3, if_neg n3,
      Nat.mul_mod_left, and_true, and_self, eq_self_iff_true, if_true,
      Option.some.injEq, List.cons.injEq]
    omega
  | b1 :: b2 :: b3 :: rest, h => by
    have hb1 : b1 < 256 := h b1 (by simp)
    have hb2 : b2 < 256 := h b2 (by simp)
    have hb3 : b3 < 256 := h b3 (by simp)
    have ih := b64_roundtrip rest fun b hb => h b (by simp [hb])
    have d1 := b64DecChar_b64Char (b1 / 4) (by omega)
    have d2 := b64DecChar_b64Char (b1 % 4 * 16 + b2 / 16) (by omega)
    have d3 := b64DecChar_b64Char (b2 % 16 * 4 + b3 / 64) (by omega)
    have d4 := b64DecChar_b64Char (b3 % 64) (by omega)
    have n3 := b64Char_ne_pad (b2 % 16 * 4 + b3 / 64) (by omega)
    have n4 := b64Char_ne_pad (b3 % 64) (by omega)
    simp only [b64encodeBytes, b64decodeBytes, d1, d2, d3, d4, if_neg n3,
      if_neg n4, ih, Option.map_some', Option.some.injEq, List.cons.injEq,
      and_true]
    omega

/-! ## Claims C7, C2, C9 about generate_audio -/

/-- Claim C7: for every request, decoding the base64 payload returned to
the caller (line 81) yields bytes identical to the content of the file
written to disk for that same request (line 79).  Both exports apply the
codec — a pure function per the spec — to the same audio segment. -/
theorem c7_payload_matches_file {α : Type} (prompt : String) (steps : ℤ)
    (cfg_scale sigma_min sigma_max generation_time : ℚ) (seed : ℤ)
    (sampler_type : String) (model : ModelCall → List ℚ)
    (toAudio : List (Option ℤ) → α) (exportMp3 : α → List ℕ)
    (ex : String → Bool) (dateFolder : String) (fuel : ℕ) (out : GenOut)
    (hgen : generate_audio prompt steps cfg_scale sigma_min sigma_max generation_time
      seed sampler_type model toAudio exportMp3 ex dateFolder fuel = some out)
    (hbytes : ∀ b ∈ out.writtenBytes, b < 256) :
    b64decodeStr out.payload = some out.writtenBytes := by
  simp only [generate_audio] at hgen
  split at hgen
  · cases hgen
  · cases hgen
    exact b64_roundtrip _ hbytes

/-- Witness for claim C7 with a stub model and codec producing the
bytes `[77, 0, 255]`. -/
theorem c7_payload_matches_file_witness :
    b64decodeStr (b64encodeStr [77, 0, 255]) = some [77, 0, 255] :=
  c7_payload_matches_file (α := Unit) "p" 100 7 1 500 10 42 "k-lms" (fun _ => [])
    (fun _ => ()) (fun _ => [77, 0, 255]) (fun _ => false) "2024-01-01" 1
    ⟨⟨"p", 100, 7, 0, 10, 1, 500, "k-lms", 42⟩, "Output/2024-01-01/p.mp3",
      b64encodeStr [77, 0, 255], [77, 0, 255],
      [FsEffect.writeWav "temp_output.wav", FsEffect.readWav "temp_output.wav",
        FsEffect.exportFile "Output/2024-01-01/p.mp3"]⟩
    rfl (by decide)

/-- Claim C2 counterexample: a request with `steps = -5` — outside the
supported range (the UI slider allows 0..200 and the spec requires a
positive integer) — does not fail with any validation error: generation
proceeds and the model is invoked with the out-of-range value `-5`
unchanged.  `generate_audio` contains no validation or clamping code at
all, so the claim as stated is false. -/
theorem c2_counterexample :
    ((generate_audio (α := Unit) "p" (-5) 7 1 500 10 42 "k-lms" (fun _ => [])
        (fun _ => ()) (fun _ => []) (fun _ => false) "2024-01-01" 1).map
      (fun o => o.call.steps)) = some (-5) ∧ (-5 : ℤ) < 0 :=
  ⟨rfl, by decide⟩

/-- Claim C2 as amended: `generate_audio` performs no validation of its
numeric fields whatsoever: for every request — in or out of range — the
model invocation receives exactly the request's values (with
`seconds_start = 0` and `seconds_total = generation_time` in the
conditioning), nothing is rejected or clamped, and no `ValidationError`
path exists.  Range limits live only in the UI slider bounds. -/
theorem c2_no_validation {α : Type} (prompt : String) (steps : ℤ)
    (cfg_scale sigma_min sigma_max generation_time : ℚ) (seed : ℤ)
    (sampler_type : String) (model : ModelCall → List ℚ)
    (toAudio : List (Option ℤ) → α) (exportMp3 : α → List ℕ)
    (ex : String → Bool) (dateFolder : String) (fuel : ℕ) (out : GenOut)
    (hgen : generate_audio prompt steps cfg_scale sigma_min sigma_max generation_time
      seed sampler_type model toAudio exportMp3 ex dateFolder fuel = some out) :
    out.call = ⟨prompt, steps, cfg_scale, 0, generation_time, sigma_min, sigma_max,
      sampler_type, seed⟩ := by
  simp only [generate_audio] at hgen
  split at hgen
  · cases hgen
  · cases hgen
    rfl

/-- Witness for the amended claim C2: the out-of-range `steps = -5`
reaches the model call unchanged. -/
theorem c2_no_validation_witness :
    (⟨⟨"p", -5, 7, 0, 10, 1, 500, "k-lms", 42⟩, "Output/2024-01-01/p.mp3",
      b64encodeStr [], [],
      [FsEffect.writeWav "temp_output.wav", FsEffect.readWav "temp_output.wav",
        FsEffect.exportFile "Output/2024-01-01/p.mp3"]⟩ : GenOut).call
      = ⟨"p", -5, 7, 0, 10, 1, 500, "k-lms", 42⟩ :=
  c2_no_validation (α := Unit) "p" (-5) 7 1 500 10 42 "k-lms" (fun _ => [])
    (fun _ => ()) (fun _ => []) (fun _ => false) "2024-01-01" 1 _ rfl

/-- Claim C9: for every request, regardless of prompt or parameters, the
conversion step writes the intermediate lossless WAV to the same fixed
relative path `"temp_output.wav"` (line 52) and reads it back from there
(line 55); the path is a process-wide constant, not unique per request,
and no file operation ever removes it — the file is left in place. -/
theorem c9_fixed_temp_wav {α : Type} (prompt : String) (steps : ℤ)
    (cfg_scale sigma_min sigma_max generation_time : ℚ) (seed : ℤ)
    (sampler_type : String) (model : ModelCall → List ℚ)
    (toAudio : List (Option ℤ) → α) (exportMp3 : α → List ℕ)
    (ex : String → Bool) (dateFolder : String) (fuel : ℕ) (out : GenOut)
    (hgen : generate_audio prompt steps cfg_scale sigma_min sigma_max generation_time
      seed sampler_type model toAudio exportMp3 ex dateFolder fuel = some out) :
    out.effects = [FsEffect.writeWav "temp_output.wav",
      FsEffect.readWav "temp_output.wav", FsEffect.exportFile out.full_path]
    ∧ FsEffect.removeFile "temp_output.wav" ∉ out.effects := by
  simp only [generate_audio] at hgen
  split at hgen
  · cases hgen
  · cases hgen
    refine ⟨rfl, ?_⟩
    intro hp
    simp at hp

/-- Witness for claim C9 at a concrete request. -/
theorem c9_fixed_temp_wav_witness :
    ([FsEffect.writeWav "temp_output.wav", FsEffect.readWav "temp_output.wav",
        FsEffect.exportFile "Output/2024-01-01/q.mp3"]
      = [FsEffect.writeWav "temp_output.wav", FsEffect.readWav "temp_output.wav",
        FsEffect.exportFile "Output/2024-01-01/q.mp3"])
    ∧ FsEffect.removeFile "temp_output.wav" ∉
        [FsEffect.writeWav "temp_output.wav", FsEffect.readWav "temp_output.wav",
          FsEffect.exportFile "Output/2024-01-01/q.mp3"] := by
  have h := c9_fixed_temp_wav (α := Unit) "q" 100 7 1 500 10 42 "k-lms" (fun _ => [])
    (fun _ => ()) (fun _ => [1, 2]) (fun _ => false) "2024-01-01" 1
    ⟨⟨"q", 100, 7, 0, 10, 1, 500, "k-lms", 42⟩, "Output/2024-01-01/q.mp3",
      b64encodeStr [1, 2], [1, 2],
      [FsEffect.writeWav "temp_output.wav", FsEffect.readWav "temp_output.wav",
        FsEffect.exportFile "Output/2024-01-01/q.mp3"]⟩ rfl
  exact h

/-! ## Claim C4: non-silent input quantizes to full scale -/

theorem truncQ_intCast (z : ℤ) : truncQ (z : ℚ) = z := by
  unfold truncQ
  split
  · exact Int.floor_intCast z
  · exact Int.ceil_intCast z

theorem abs_truncQ_le {q : ℚ} (h : |q| ≤ 32767) : |truncQ q| ≤ 32767 := by
  unfold truncQ
  split
  · next h0 =>
    rw [abs_of_nonneg (Int.floor_nonneg.2 h0)]
    have h1 : ⌊q⌋ ≤ ⌊(32767 : ℚ)⌋ := Int.floor_le_floor (le_trans (le_abs_self q) h)
    have h2 : ⌊(32767 : ℚ)⌋ = 32767 := by
      rw [show ((32767 : ℚ)) = ((32767 : ℤ) : ℚ) by norm_num, Int.floor_intCast]
    omega
  · next h0 =>
    have hq : q ≤ 0 := le_of_lt (lt_of_not_ge h0)
    have hc0 : ⌈q⌉ ≤ 0 := Int.ceil_le.2 (by exact_mod_cast hq)
    rw [abs_of_nonpos hc0]
    have h1 : ⌈((-32767 : ℤ) : ℚ)⌉ ≤ ⌈q⌉ := by
      apply Int.ceil_le_ceil
      rw [show (((-32767 : ℤ) : ℚ)) = -(32767 : ℚ) by norm_num]
      exact neg_le_of_abs_le h
    rw [Int.ceil_intCast] at h1
    omega

theorem clampF_of_abs_le {q : ℚ} (h : |q| ≤ 1) : clampF (FVal.val q) = FVal.val q := by
  show FVal.val (max (-1) (min 1 q)) = FVal.val q
  rw [min_eq_right (abs_le.1 h).2, max_eq_right (abs_le.1 h).1]

theorem postProcess_elem {m x : ℚ} (hm : 0 < m) (hle : |x| ≤ m) :
    toInt16 (mulConst 32767 (clampF (divByMax m x))) = some (truncQ (x / m * 32767)) := by
  rw [divByMax, if_neg hm.ne']
  have habs : |x / m| ≤ 1 := by
    rw [abs_div, abs_of_pos hm]
    exact (div_le_one hm).2 hle
  rw [clampF_of_abs_le habs]
  rfl

theorem foldrMax_le {α : Type} (t : α → ℤ) (xs : List α)
    (h : ∀ x ∈ xs, |t x| ≤ 32767) :
    xs.foldr (fun x m => max |t x| m) 0 ≤ 32767 := by
  induction xs with
  | nil =>
    show (0 : ℤ) ≤ 32767
    decide
  | cons y ys ih =>
    simp only [List.foldr_cons]
    exact max_le (h y (List.mem_cons_self y ys))
      (ih fun x hx => h x (List.mem_cons_of_mem _ hx))

theorem le_foldrMax {α : Type} (t : α → ℤ) (xs : List α) {x : α} (hx : x ∈ xs) :
    |t x| ≤ xs.foldr (fun x m => max |t x| m) 0 := by
  induction xs with
  | nil => cases hx
  | cons y ys ih =>
    simp only [List.foldr_cons]
    rcases List.mem_cons.1 hx with rfl | hmem
    · exact le_max_left _ _
    · exact le_trans (ih hmem) (le_max_right _ _)

theorem maxAbsOut_map_some {α : Type} (t : α → ℤ) (xs : List α) :
    maxAbsOut (xs.map fun x => some (t x))
      = some (xs.foldr (fun x m => max |t x| m) 0) := by
  induction xs with
  | nil => rfl
  | cons y ys ih => simp only [List.map_cons, maxAbsOut, ih, List.foldr_cons]

/-- Claim C4: for every raw waveform with at least one non-zero sample,
the post-processed output of line 51 is defined at every sample and its
maximum absolute value is exactly 32767, the maximum representable
16-bit magnitude: the peak sample divides to exactly ±1, is unchanged
by the clamp, scales to ±32767, and the int16 cast (truncation toward
zero — exact on the integer peak, and differing from round-to-nearest
by less than one step elsewhere) preserves it, while every other sample
stays within ±32767. -/
theorem c4_peak_full_scale (xs : List ℚ) (h : ∃ x ∈ xs, x ≠ 0) :
    maxAbsOut (postProcess xs) = some 32767 := by
  obtain ⟨x₀, hx₀, hne⟩ := h
  have hm : 0 < maxAbs xs := lt_of_lt_of_le (abs_pos.2 hne) (le_maxAbs hx₀)
  have hmap : postProcess xs = xs.map fun x => some (truncQ (x / maxAbs xs * 32767)) := by
    unfold postProcess
    exact List.map_congr_left fun x hx => postProcess_elem hm (le_maxAbs hx)
  rw [hmap, maxAbsOut_map_some]
  congr 1
  apply le_antisymm
  · refine foldrMax_le (fun x => truncQ (x / maxAbs xs * 32767)) xs ?_
    intro x hx
    apply abs_truncQ_le
    rw [abs_mul]
    have h1 : |x / maxAbs xs| ≤ 1 := by
      rw [abs_div, abs_of_pos hm]
      exact (div_le_one hm).2 (le_maxAbs hx)
    calc |x / maxAbs xs| * |(32767 : ℚ)|
        ≤ 1 * |(32767 : ℚ)| := mul_le_mul_of_nonneg_right h1 (abs_nonneg _)
      _ = 32767 := by norm_num
  · obtain ⟨y, hy, hyeq⟩ := exists_abs_eq_maxAbs hm.ne'
    have hval : |truncQ (y / maxAbs xs * 32767)| = 32767 := by
      rcases (abs_eq (le_of_lt hm)).1 hyeq with rfl | rfl
      · rw [div_self hm.ne', one_mul,
          show ((32767 : ℚ)) = ((32767 : ℤ) : ℚ) by norm_num, truncQ_intCast]
        decide
      · rw [neg_div, div_self hm.ne', neg_one_mul,
          show (-(32767 : ℚ)) = ((-32767 : ℤ) : ℚ) by norm_num, truncQ_intCast]
        decide
    calc (32767 : ℤ) = |truncQ (y / maxAbs xs * 32767)| := hval.symm
      _ ≤ _ := le_foldrMax (fun x => truncQ (x / maxAbs xs * 32767)) xs hy

/-- Witness for claim C4 at the concrete non-silent input `[1, -2]`. -/
theorem c4_peak_full_scale_witness :
    maxAbsOut (postProcess [(1 : ℚ), -2]) = some 32767 :=
  c4_peak_full_scale [(1 : ℚ), -2] ⟨1, by decide, by decide⟩

end StableAudio
